import Mathlib

/-!
Verification development for the `ur2ud.py` transliterator (romanized Indic
text to Devanagari).  Strings are embedded as lists of Unicode scalar values
(`List Nat`); the Python dictionaries become association lists with the
source's insertion order; the class-level dictionaries that `__init__`
mutates in place are threaded explicitly as a `Tables` value, and the
`del` statements (which raise `KeyError` on a missing key) are modelled by
`Except`, with the offending key as the error payload.
-/

namespace Ur2ud

/-- A Python unicode string, as its list of Unicode scalar values. -/
abbrev Str := List Nat

/-- Dictionary lookup `d[k]` that returns `none` when the key is absent
(the `k in d` guard and `d[k]` access pair in the source). -/
def dictGet (d : List (Str × Str)) (k : Str) : Option Str :=
  match d with
  | [] => none
  | (k', v) :: rest => if k = k' then some v else dictGet rest k

/-- Dictionary assignment `d[k] = v`: replace the value in place when the
key exists, otherwise append the new binding. -/
def dictSet (d : List (Str × Str)) (k v : Str) : List (Str × Str) :=
  match d with
  | [] => [(k, v)]
  | (k', v') :: rest =>
    if k = k' then (k, v) :: rest else (k', v') :: dictSet rest k v

/-- Python `d.update(kvs)`: fold dict assignment over the new bindings. -/
def dictUpdate (d : List (Str × Str)) (kvs : List (Str × Str)) :
    List (Str × Str) :=
  kvs.foldl (fun acc kv => dictSet acc kv.1 kv.2) d

/-- Python `del d[k]`: `none` models the `KeyError` raised on a missing key. -/
def dictDel (d : List (Str × Str)) (k : Str) : Option (List (Str × Str)) :=
  match d with
  | [] => none
  | (k', v') :: rest =>
    if k = k' then some rest else (dictDel rest k).map ((k', v') :: ·)

/-- Python `d.keys()`. -/
def dictKeys (d : List (Str × Str)) : List Str := d.map (·.1)

/-- The four class-level transliteration dictionaries that the algorithm
reads (the accented-vowel and numeral tables in the source are never
consulted by `process_token`/`transliterate`). -/
structure Tables where
  diacritics : List (Str × Str)
  consonants : List (Str × Str)
  initialVowels : List (Str × Str)
  combiningVowels : List (Str × Str)
deriving DecidableEq

def VIRAMA : Nat := 0x094D
def AVAGRAHA : Nat := 0x093D
def ANUSVARA : Nat := 0x0902

/-- Class attribute `Transliterator.DIACRITICS`. -/
def DIACRITICS : List (Str × Str) := [
  ([0x1E41], [0x0902]),             -- m odot (anusvara)
  ([0x1E25], [0x0903]),             -- h udot (visarga)
  ([0x6D, 0x310], [0x0901])]        -- m cand (candrabindu)

/-- Class attribute `Transliterator.CONSONANTS`. -/
def CONSONANTS : List (Str × Str) := [
  ([0x6B], [0x0915]),               -- k
  ([0x71], [0x0958]),               -- q
  ([0x6B, 0x68], [0x0916]),         -- kh
  ([0x67], [0x0917]),               -- g
  ([0x67, 0x68], [0x0918]),         -- gh
  ([0x63], [0x091A]),               -- c
  ([0x63, 0x68], [0x091B]),         -- ch
  ([0x6A], [0x091C]),               -- j
  ([0x7A], [0x095B]),               -- z
  ([0x6A, 0x68], [0x091D]),         -- jh
  ([0x74], [0x0924]),               -- t
  ([0x74, 0x68], [0x0925]),         -- th
  ([0x64], [0x0926]),               -- d
  ([0x64, 0x68], [0x0927]),         -- dh
  ([0x6E], [0x0928]),               -- n
  ([0x70], [0x092A]),               -- p
  ([0x70, 0x68], [0x092B]),         -- ph
  ([0x66], [0x095E]),               -- f
  ([0x62], [0x092C]),               -- b
  ([0x62, 0x68], [0x092D]),         -- bh
  ([0x6D], [0x092E]),               -- m
  ([0x79], [0x092F]),               -- y
  ([0x72], [0x0930]),               -- r
  ([0x6C], [0x0932]),               -- l
  ([0x76], [0x0935]),               -- v
  ([0x73], [0x0938]),               -- s
  ([0x68], [0x0939]),               -- h
  ([0xF1], [0x091E]),               -- n tilde
  ([0x121], [0x095A]),              -- g odot
  ([0x1E45], [0x0919]),             -- n odot
  ([0x1E6D], [0x091F]),             -- t udot
  ([0x1E6D, 0x68], [0x0920]),       -- th udot
  ([0x1E0D], [0x0921]),             -- d udot
  ([0x1E0D, 0x68], [0x0922]),       -- dh udot
  ([0x1E5B], [0x095C]),             -- r udot
  ([0x1E5B, 0x68], [0x095D]),       -- rh udot
  ([0x1E47], [0x0923]),             -- n udot
  ([0x1E49], [0x0929]),             -- n ubar
  ([0x1E37], [0x0933]),             -- l udot
  ([0x1E3B], [0x0934]),             -- l ubar
  ([0x15B], [0x0936]),              -- s acute
  ([0x1E63], [0x0937]),             -- s udot
  ([0x1E8F], [0x095F]),             -- y odot
  ([0x72, 0x306], [0x0931]),        -- r breve
  ([0x6B, 0x200D, 0x331], [0x0959])]  -- kh ubar

/-- Class attribute `Transliterator.INITIAL_VOWELS` (before the constructor merges the
diacritics and the avagraha entry). -/
def INITIAL_VOWELS : List (Str × Str) := [
  ([0x61], [0x0905]),               -- a
  ([0x69], [0x0907]),               -- i
  ([0x75], [0x0909]),               -- u
  ([0x65], [0x090F]),               -- e
  ([0x6F], [0x0913]),               -- o
  ([0x61, 0x69], [0x0910]),         -- ai
  ([0x61, 0x75], [0x0914]),         -- au
  ([0xEA], [0x090D]),               -- e circ
  ([0xF4], [0x0911]),               -- o circ
  ([0xE3], [0x0905, 0x0901]),       -- a tilde
  ([0xF5], [0x0913, 0x0902]),       -- o tilde
  ([0x101], [0x0906]),              -- a macron
  ([0x1EBD], [0x090F, 0x0901]),     -- e tilde
  ([0x12B], [0x0908]),              -- i macron
  ([0x16B], [0x090A]),              -- u macron
  ([0x129], [0x0907, 0x0901]),      -- i tilde
  ([0x169], [0x0909, 0x0901]),      -- u tilde
  ([0x61, 0x129], [0x0910, 0x0902]),   -- ai tilde
  ([0x61, 0x169], [0x0914, 0x0902]),   -- au tilde
  ([0x101, 0x303], [0x0906, 0x0901]),  -- a mactil
  ([0x12B, 0x303], [0x0908, 0x0902]),  -- i mactil
  ([0x16B, 0x303], [0x090A, 0x0901]),  -- u mactil
  ([0x101, 0x300], [0x0906]),       -- a macgrv
  ([0x101, 0x301], [0x0906]),       -- a macac
  ([0x12B, 0x300], [0x0908]),       -- i macgrv
  ([0x12B, 0x301], [0x0908]),       -- i macac
  ([0x16B, 0x300], [0x090A]),       -- u macgrv
  ([0x16B, 0x301], [0x090A]),       -- u macac
  ([0x6C, 0x325], [0x090C]),        -- l uring
  ([0x72, 0x325], [0x090B]),        -- r uring
  ([0x6C, 0x325, 0x304], [0x0961]), -- l uringmac
  ([0x72, 0x325, 0x304], [0x0960]), -- r uringmac
  ([0x6C, 0x325, 0x300], [0x090C]), -- l uringgrv
  ([0x6C, 0x325, 0x301], [0x090C]), -- l uringac
  ([0x72, 0x325, 0x300], [0x090B]), -- r uringgrv
  ([0x72, 0x325, 0x301], [0x090B]), -- r uringac
  ([0x6C, 0x325, 0x304, 0x300], [0x0961]),  -- l uringmacgrv
  ([0x6C, 0x325, 0x304, 0x301], [0x0961]),  -- l uringmacac
  ([0x72, 0x325, 0x304, 0x300], [0x0960]),  -- r uringmacgrv
  ([0x72, 0x325, 0x304, 0x301], [0x0960])]  -- r uringmacac

/-- Class attribute `Transliterator.COMBINING_VOWELS`. -/
def COMBINING_VOWELS : List (Str × Str) := [
  ([0x61], []),                     -- a
  ([0x69], [0x093F]),               -- i
  ([0x75], [0x0941]),               -- u
  ([0x65], [0x0947]),               -- e
  ([0x6F], [0x094B]),               -- o
  ([0x61, 0x69], [0x0948]),         -- ai
  ([0x61, 0x75], [0x094C]),         -- au
  ([0xEA], [0x0945]),               -- e circ
  ([0xF4], [0x0949]),               -- o circ
  ([0xE3], [0x0901]),               -- a tilde
  ([0xF5], [0x094B, 0x0902]),       -- o tilde
  ([0x101], [0x093E]),              -- a macron
  ([0x1EBD], [0x0947, 0x0902]),     -- e tilde
  ([0x12B], [0x0940]),              -- i macron
  ([0x16B], [0x0942]),              -- u macron
  ([0x129], [0x093F, 0x0902]),      -- i tilde
  ([0x169], [0x0941, 0x0901]),      -- u tilde
  ([0x61, 0x129], [0x0948, 0x0902]),   -- ai tilde
  ([0x61, 0x169], [0x094C, 0x0902]),   -- au tilde
  ([0x101, 0x303], [0x093E, 0x0901]),  -- a mactil
  ([0x12B, 0x303], [0x0940, 0x0902]),  -- i mactil
  ([0x16B, 0x303], [0x0942, 0x0901]),  -- u mactil
  ([0x101, 0x300], [0x093E]),       -- a macgrv
  ([0x101, 0x301], [0x093E]),       -- a macac
  ([0x12B, 0x300], [0x0940]),       -- i macgrv
  ([0x12B, 0x301], [0x0940]),       -- i macac
  ([0x16B, 0x300], [0x0942]),       -- u macgrv
  ([0x16B, 0x301], [0x0942]),       -- u macac
  ([0x6C, 0x325], [0x0962]),        -- l uring
  ([0x72, 0x325], [0x0943]),        -- r uring
  ([0x6C, 0x325, 0x304], [0x0963]), -- l uringmac
  ([0x72, 0x325, 0x304], [0x0944]), -- r uringmac
  ([0x6C, 0x325, 0x300], [0x0962]), -- l uringgrv
  ([0x6C, 0x325, 0x301], [0x0962]), -- l uringac
  ([0x72, 0x325, 0x300], [0x0943]), -- r uringgrv
  ([0x72, 0x325, 0x301], [0x0943]), -- r uringac
  ([0x6C, 0x325, 0x304, 0x300], [0x0963]),  -- l uringmacgrv
  ([0x6C, 0x325, 0x304, 0x301], [0x0963]),  -- l uringmacac
  ([0x72, 0x325, 0x304, 0x300], [0x0944]),  -- r uringmacgrv
  ([0x72, 0x325, 0x304, 0x301], [0x0944])]  -- r uringmacac

/-- The class-level dictionaries as first loaded (before any `__init__`). -/
def tables0 : Tables :=
  ⟨DIACRITICS, CONSONANTS, INITIAL_VOWELS, COMBINING_VOWELS⟩

/-- The entries `__init__` adds to `INITIAL_VOWELS` when `iast` is set. -/
def iastInitialVowels : List (Str × Str) := [
  ([0x1E5B], [0x090B]),             -- r udot
  ([0x1E5B, 0x304], [0x0960]),      -- r udotmac
  ([0x1E5D], [0x0960]),             -- r udotmac
  ([0x1E5B, 0x300], [0x090B]),      -- r udotgrv
  ([0x1E5B, 0x301], [0x090B]),      -- r udotac
  ([0x1E5B, 0x304, 0x300], [0x0960]),  -- r udotmacgrv
  ([0x1E5D, 0x300], [0x0960]),      -- r udotmacgrv
  ([0x1E5B, 0x304, 0x301], [0x0960]),  -- r udotmacac
  ([0x1E5D, 0x301], [0x0960]),      -- r udotmacac
  ([0x1E37], [0x090C]),             -- l udot
  ([0x1E37, 0x304], [0x0961]),      -- l udotmac
  ([0x1E39], [0x0961]),             -- l udotmac
  ([0x1E37, 0x300], [0x090C]),      -- l udotgrv
  ([0x1E37, 0x301], [0x090C]),      -- l udotac
  ([0x1E37, 0x304, 0x300], [0x0961]),  -- l udotmacgrv
  ([0x1E39, 0x300], [0x0961]),      -- l udotmacgrv
  ([0x1E37, 0x304, 0x301], [0x0961]),  -- l udotmacac
  ([0x1E39, 0x301], [0x0961])]      -- l udotmacac

/-- The entries `__init__` adds to `COMBINING_VOWELS` when `iast` is set. -/
def iastCombiningVowels : List (Str × Str) := [
  ([0x1E5B], [0x0943]),             -- r udot
  ([0x1E5B, 0x304], [0x0944]),      -- r udotmac
  ([0x1E5D], [0x0944]),             -- r udotmac
  ([0x1E5B, 0x300], [0x0943]),      -- r udotgrv
  ([0x1E5B, 0x301], [0x0943]),      -- r udotac
  ([0x1E5B, 0x304, 0x300], [0x0944]),  -- r udotmacgrv
  ([0x1E5D, 0x300], [0x0944]),      -- r udotmacgrv
  ([0x1E5B, 0x304, 0x301], [0x0944]),  -- r udotmacac
  ([0x1E5D, 0x301], [0x0944]),      -- r udotmacac
  ([0x1E37], [0x0962]),             -- l udot
  ([0x1E37, 0x304], [0x0963]),      -- l udotmac
  ([0x1E39], [0x0963]),             -- l udotmac
  ([0x1E37, 0x300], [0x0962]),      -- l udotgrv
  ([0x1E37, 0x301], [0x0962]),      -- l udotac
  ([0x1E37, 0x304, 0x300], [0x0963]),  -- l udotmacgrv
  ([0x1E39, 0x300], [0x0963]),      -- l udotmacgrv
  ([0x1E37, 0x304, 0x301], [0x0963]),  -- l udotmacac
  ([0x1E39, 0x301], [0x0963])]      -- l udotmacac

/-- Constructor `Transliterator.__init__`: takes the current class-level dictionaries
(they are shared by all instances and mutated in place), returns the
mutated dictionaries together with the instance attribute
`transliterables`.  A failing `del` returns the missing key as the
`KeyError` payload. -/
def initTransliterator (iast : Bool) (cls : Tables) :
    Except Str (Tables × List Str) :=
  let step1 : Except Str Tables :=
    if iast then
      let dia := dictSet cls.diacritics [0x1E43] [ANUSVARA]
      match dictDel cls.consonants [0x1E5B] with
      | none => .error [0x1E5B]
      | some cons1 =>
        match dictDel cons1 [0x1E5B, 0x68] with
        | none => .error [0x1E5B, 0x68]
        | some cons2 =>
          match dictDel cons2 [0x1E37] with
          | none => .error [0x1E37]
          | some cons3 =>
            .ok { diacritics := dia, consonants := cons3,
                  initialVowels := dictUpdate cls.initialVowels iastInitialVowels,
                  combiningVowels := dictUpdate cls.combiningVowels iastCombiningVowels }
    else .ok cls
  match step1 with
  | .error e => .error e
  | .ok t =>
    let tr := dictKeys t.consonants ++ dictKeys t.combiningVowels ++ [[]]
    let iv := dictSet (dictUpdate t.initialVowels t.diacritics) [0x27] [AVAGRAHA]
    .ok ({ t with initialVowels := iv }, tr)

/-- Python 2 `unicode.lower()`: per-character simple lowercase mapping,
restricted here to the Latin ranges relevant to the transliteration
tables (ASCII, Latin-1, Latin Extended-A, Latin Extended Additional). -/
def lowerChar (c : Nat) : Nat :=
  if 0x41 ≤ c ∧ c ≤ 0x5A then c + 0x20
  else if 0xC0 ≤ c ∧ c ≤ 0xDE ∧ c ≠ 0xD7 then c + 0x20
  else if ((0x100 ≤ c ∧ c ≤ 0x137) ∨ (0x14A ≤ c ∧ c ≤ 0x177)) ∧ c % 2 = 0 then c + 1
  else if ((0x139 ≤ c ∧ c ≤ 0x148) ∨ (0x179 ≤ c ∧ c ≤ 0x17E)) ∧ c % 2 = 1 then c + 1
  else if 0x1E00 ≤ c ∧ c ≤ 0x1EFF ∧ c % 2 = 0 then c + 1
  else c

/-- Method `Transliterator.process_token`: `none` models `return False`;
`some (out, s')` is the appended output and the updated scan state.
States: `0` start, `1` pending consonant, `-1` passthrough/other. -/
def process_token (tb : Tables) (s : Int) (tok : Str) : Option (Str × Int) :=
  if tok = [0x20, 0x27] ∧ s = 1 then some ([], 0)
  else if tok = [0x27, 0x20] ∧ s = 1 then some ([0x20], 0)
  else if tok = [0x27, 0x1E41] then some ([ANUSVARA, AVAGRAHA], 0)
  else
    match dictGet tb.consonants tok with
    | some codes => some ((if s = 1 then [VIRAMA] else []) ++ codes, 1)
    | none =>
      if s < 1 then
        match dictGet tb.initialVowels tok with
        | some codes => some (codes, s)
        | none => none
      else if s = 1 then
        match dictGet tb.combiningVowels tok with
        | some codes => some (codes, 0)
        | none => none
      else none

/-- The single-character arm of the scan loop: the space-swallowing and
apostrophe-dropping lookahead rules, then the one-character table
dispatch, then the passthrough fallback.  `la` is the lookahead slice
`text[i+1:i+2]`.  Every branch consumes exactly one character. -/
def stepOne (tb : Tables) (tr : List Str) (s : Int) (c : Nat) (la : Str) :
    Str × Int :=
  if c = 0x20 ∧ ((s = 1 ∧ la ∈ tr) ∨ (s < 1 ∧ la = [0x27])) then ([], s)
  else if c = 0x27 ∧ ¬ la ∈ tr then ([], 0)
  else
    match process_token tb s [c] with
    | some (out, s') => (out, s')
    | none => ((if s = 1 then [VIRAMA] else []) ++ [c], -1)

/-- The `while` loop of `Transliterator.transliterate`: at each position
the two-character slice `text[i:i+2]` is tried through `process_token`
first (advancing the cursor by 2 on success); otherwise the
single-character rules of `stepOne` run (advancing by 1).  On exhaustion
a pending consonant is closed with a trailing virama. -/
def scanText (tb : Tables) (tr : List Str) : Int → Str → Str
  | s, [] => if s = 1 then [VIRAMA] else []
  | s, [c] =>
    match process_token tb s [c] with
    | some (out, s') => out ++ scanText tb tr s' []
    | none =>
      let p := stepOne tb tr s c []
      p.1 ++ scanText tb tr p.2 []
  | s, c1 :: c2 :: rest =>
    match process_token tb s [c1, c2] with
    | some (out, s') => out ++ scanText tb tr s' rest
    | none =>
      let p := stepOne tb tr s c1 [c2]
      p.1 ++ scanText tb tr p.2 (c2 :: rest)

/-- Method `Transliterator.transliterate`: lowercase the input, reset the scan
state to start, run the loop.  `tb` is the class-level dictionary state
at call time, `tr` the instance's `transliterables` attribute. -/
def transliterate (tb : Tables) (tr : List Str) (text : Str) : Str :=
  scanText tb tr 0 (text.map lowerChar)

/-- A single loop iteration, with the number of characters consumed made
explicit (2 when the two-character attempt succeeds, otherwise 1). -/
def stepScan (tb : Tables) (tr : List Str) (s : Int) (c : Nat) (rest : Str) :
    Str × Int × Nat :=
  match process_token tb s (c :: rest.take 1) with
  | some (out, s') => (out, s', 2)
  | none =>
    let p := stepOne tb tr s c (rest.take 1)
    (p.1, p.2, 1)

/-- The engine instance constructed with `iast=False` on the pristine
class dictionaries, together with its `transliterables` attribute. -/
def isoInstance : Tables × List Str :=
  (initTransliterator false tables0).toOption.getD (tables0, [])

/-- The engine instance constructed with `iast=True` on the pristine
class dictionaries. -/
def iastInstance : Tables × List Str :=
  (initTransliterator true tables0).toOption.getD (tables0, [])

/-- The class-level dictionary state after an `iast=True` construction is
performed once an `iast=False` instance already exists (the constructor
mutates the dictionaries shared by all instances). -/
def isoThenIast : Tables × List Str :=
  (initTransliterator true isoInstance.1).toOption.getD (tables0, [])

/-! ### Helper lemmas -/

theorem dictGet_mem {d : List (Str × Str)} {k v : Str}
    (h : dictGet d k = some v) : (k, v) ∈ d := by
  induction d with
  | nil => simp [dictGet] at h
  | cons kv rest ih =>
    obtain ⟨k', v'⟩ := kv
    by_cases hk : k = k'
    · simp only [dictGet, if_pos hk] at h
      obtain rfl := Option.some.inj h
      subst hk
      exact List.mem_cons_self _ _
    · simp only [dictGet, if_neg hk] at h
      exact List.mem_cons_of_mem _ (ih h)

/-- How many codepoints a pending consonant still owes (the virama that a
later step may have to emit). -/
def pendOf (s : Int) : Nat := if s = 1 then 1 else 0

theorem viramaPrefix_length (s : Int) :
    (if s = 1 then [VIRAMA] else ([] : Str)).length = pendOf s := by
  unfold pendOf
  by_cases h : s = 1 <;> simp [h]

/-- A token found in `CONSONANTS` is processed as a consonant in every
state: any pending consonant is closed with a virama, the consonant's
codepoints follow, and the state becomes pending-consonant. -/
theorem process_token_consonant (tb : Tables) (s : Int) (tok v : Str)
    (h1 : tok ≠ [0x20, 0x27]) (h2 : tok ≠ [0x27, 0x20])
    (h3 : tok ≠ [0x27, 0x1E41]) (h4 : dictGet tb.consonants tok = some v) :
    process_token tb s tok = some ((if s = 1 then [VIRAMA] else []) ++ v, 1) := by
  unfold process_token
  rw [if_neg (fun h => h1 h.1), if_neg (fun h => h2 h.1), if_neg h3, h4]

/-- A non-consonant token found in `COMBINING_VOWELS` is, in the
pending-consonant state, emitted as a combining vowel with no virama, and
the state returns to start. -/
theorem process_token_combining (tb : Tables) (tok v : Str)
    (h1 : tok ≠ [0x20, 0x27]) (h2 : tok ≠ [0x27, 0x20])
    (h3 : tok ≠ [0x27, 0x1E41]) (h4 : dictGet tb.consonants tok = none)
    (h5 : dictGet tb.combiningVowels tok = some v) :
    process_token tb 1 tok = some (v, 0) := by
  unfold process_token
  rw [if_neg (fun h => h1 h.1), if_neg (fun h => h2 h.1), if_neg h3, h4]
  norm_num [h5]

/-- A non-consonant token found in `INITIAL_VOWELS` is, in a
non-pending state, emitted as an initial vowel with the state unchanged. -/
theorem process_token_initial (tb : Tables) (s : Int) (tok v : Str)
    (h1 : tok ≠ [0x20, 0x27]) (h2 : tok ≠ [0x27, 0x20])
    (h3 : tok ≠ [0x27, 0x1E41]) (h4 : dictGet tb.consonants tok = none)
    (h5 : dictGet tb.initialVowels tok = some v) (hs : s < 1) :
    process_token tb s tok = some (v, s) := by
  unfold process_token
  rw [if_neg (fun h => h1 h.1), if_neg (fun h => h2 h.1), if_neg h3, h4,
    if_pos hs, h5]

/-- Facts about every entry of the ISO-instance consonant table: no key is
one of the apostrophe special cases, lookup returns the stored value, the
value holds no virama, and values are single codepoints. -/
theorem iso_cons_facts :
    ∀ kv ∈ isoInstance.1.consonants,
      kv.1 ≠ [0x20, 0x27] ∧ kv.1 ≠ [0x27, 0x20] ∧ kv.1 ≠ [0x27, 0x1E41] ∧
      dictGet isoInstance.1.consonants kv.1 = some kv.2 ∧
      VIRAMA ∉ kv.2 ∧ kv.2.length ≤ 1 := by decide

/-- Facts about every entry of the ISO-instance combining-vowel table:
no key is a special case or a consonant, lookup returns the stored value,
and the value holds no virama. -/
theorem iso_comb_facts :
    ∀ kv ∈ isoInstance.1.combiningVowels,
      kv.1 ≠ [0x20, 0x27] ∧ kv.1 ≠ [0x27, 0x20] ∧ kv.1 ≠ [0x27, 0x1E41] ∧
      dictGet isoInstance.1.consonants kv.1 = none ∧
      dictGet isoInstance.1.combiningVowels kv.1 = some kv.2 ∧
      VIRAMA ∉ kv.2 := by decide

/-- Facts about every entry of the ISO-instance initial-vowel table
(diacritics and avagraha included): no key is a special case or a
consonant, and lookup returns the stored value. -/
theorem iso_init_facts :
    ∀ kv ∈ isoInstance.1.initialVowels,
      kv.1 ≠ [0x20, 0x27] ∧ kv.1 ≠ [0x27, 0x20] ∧ kv.1 ≠ [0x27, 0x1E41] ∧
      dictGet isoInstance.1.consonants kv.1 = none ∧
      dictGet isoInstance.1.initialVowels kv.1 = some kv.2 := by decide

/-! ### Claim theorems -/

/-- C1: `transliterate` is a total function of its input (the embedding is
a plain Lean function, mirroring the code's lack of any raising path in
the scan), and every input character for which the two-character attempt,
the space/apostrophe lookahead rules, and the one-character table lookup
all fail is appended to the output unchanged, preceded by a virama exactly
when the state is pending-consonant (`1`), with the state then set to
other (`-1`). -/
theorem c1_unmatched_passthrough (tb : Tables) (tr : List Str) (s : Int)
    (c : Nat) (rest : Str)
    (h2 : process_token tb s (c :: rest.take 1) = none)
    (hsp : ¬ (c = 0x20 ∧ ((s = 1 ∧ rest.take 1 ∈ tr) ∨ (s < 1 ∧ rest.take 1 = [0x27]))))
    (hap : ¬ (c = 0x27 ∧ ¬ rest.take 1 ∈ tr))
    (h1 : process_token tb s [c] = none) :
    scanText tb tr s (c :: rest) =
      (if s = 1 then [VIRAMA] else []) ++ c :: scanText tb tr (-1) rest := by
  have hstep : stepOne tb tr s c (rest.take 1) =
      ((if s = 1 then [VIRAMA] else []) ++ [c], -1) := by
    unfold stepOne
    rw [if_neg hsp, if_neg hap, h1]
  cases rest with
  | nil =>
    simp only [List.take_nil] at h2 hstep
    simp only [scanText, h2, hstep]
    simp
  | cons c2 rest' =>
    simp only [List.take_succ_cons, List.take_zero] at h2 hstep
    simp only [scanText, h2, hstep]
    simp

/-- Witness for C1 at the unrecognized character `'7'` in the
pending-consonant state. -/
theorem c1_unmatched_passthrough_witness :
    scanText isoInstance.1 isoInstance.2 1 [0x37] =
      (if (1 : Int) = 1 then [VIRAMA] else []) ++
        0x37 :: scanText isoInstance.1 isoInstance.2 (-1) [] :=
  c1_unmatched_passthrough isoInstance.1 isoInstance.2 1 0x37 []
    (by decide) (by decide) (by decide) (by decide)

/-- C2 counterexample: the candrabindu spelling `m U+0310` is a
two-character token of the effective table set (it is in the merged
initial-vowel table), yet in the pending-consonant state the
two-character dispatch rejects it, so it is not consumed as one token:
its one-character prefix `m` is processed as a consonant instead, and the
combining mark is passed through, as `transliterate "km̐"` shows. -/
theorem c2_candrabindu_counterexample :
    dictGet isoInstance.1.initialVowels [0x6D, 0x310] = some [0x0901] ∧
    process_token isoInstance.1 1 [0x6D, 0x310] = none ∧
    transliterate isoInstance.1 isoInstance.2 [0x6B, 0x6D, 0x310] =
      [0x0915, 0x094D, 0x092E, 0x094D, 0x310] := by decide

/-- C2 amended: at every cursor position the two-character substring is
tried first through `process_token` (special cases, then state-dependent
dispatch) and consumed as one token when it succeeds; only when it fails
is the single character handled.  Hence a two-character table token takes
priority over its one-character prefix whenever the state-dependent
dispatch accepts it in the current state: two-character consonant tokens
in every state, two-character combining-vowel tokens in the
pending-consonant state, two-character initial-vowel tokens in the
non-pending states. -/
theorem c2_twochar_first (tb : Tables) (tr : List Str) (s : Int)
    (c1 c2 : Nat) (rest : Str) :
    (∀ out s', process_token tb s [c1, c2] = some (out, s') →
      scanText tb tr s (c1 :: c2 :: rest) = out ++ scanText tb tr s' rest) ∧
    (process_token tb s [c1, c2] = none →
      scanText tb tr s (c1 :: c2 :: rest) =
        (stepOne tb tr s c1 [c2]).1 ++
          scanText tb tr (stepOne tb tr s c1 [c2]).2 (c2 :: rest)) ∧
    (∀ kv ∈ isoInstance.1.consonants, kv.1 = [c1, c2] →
      process_token isoInstance.1 s [c1, c2] =
        some ((if s = 1 then [VIRAMA] else []) ++ kv.2, 1)) ∧
    (∀ kv ∈ isoInstance.1.combiningVowels, kv.1 = [c1, c2] →
      process_token isoInstance.1 1 [c1, c2] = some (kv.2, 0)) ∧
    (∀ kv ∈ isoInstance.1.initialVowels, kv.1 = [c1, c2] → s < 1 →
      process_token isoInstance.1 s [c1, c2] = some (kv.2, s)) := by
  refine ⟨?_, ?_, ?_, ?_, ?_⟩
  · intro out s' h
    simp only [scanText, h]
  · intro h
    simp only [scanText, h]
  · intro kv hm he
    obtain ⟨a1, a2, a3, a4, _, _⟩ := iso_cons_facts kv hm
    rw [← he]
    exact process_token_consonant _ _ _ _ a1 a2 a3 a4
  · intro kv hm he
    obtain ⟨b1, b2, b3, b4, b5, _⟩ := iso_comb_facts kv hm
    rw [← he]
    exact process_token_combining _ _ _ b1 b2 b3 b4 b5
  · intro kv hm he hs
    obtain ⟨d1, d2, d3, d4, d5⟩ := iso_init_facts kv hm
    rw [← he]
    exact process_token_initial _ _ _ _ d1 d2 d3 d4 d5 hs

/-- Witness for C2 at the aspirated consonant token `kh`, consumed as one
token from the start state. -/
theorem c2_twochar_first_witness :
    scanText isoInstance.1 isoInstance.2 0 [0x6B, 0x68] =
      [0x0916] ++ scanText isoInstance.1 isoInstance.2 1 [] :=
  (c2_twochar_first isoInstance.1 isoInstance.2 0 0x6B 0x68 []).1
    [0x0916] 1 (by decide)

/-- C3 counterexample: after a fresh IAST construction the ISO15919
ring-below spelling of vocalic r and the ISO15919 anusvara spelling are
still active alongside their IAST replacements — the same phoneme has two
active spellings, contradicting the claimed removal. -/
theorem c3_duplicate_spellings_counterexample :
    dictGet iastInstance.1.initialVowels [0x72, 0x325] = some [0x090B] ∧
    dictGet iastInstance.1.initialVowels [0x1E5B] = some [0x090B] ∧
    dictGet iastInstance.1.initialVowels [0x1E41] = some [0x0902] ∧
    dictGet iastInstance.1.initialVowels [0x1E43] = some [0x0902] := by decide

/-- C3 amended: IAST construction deletes only the dot-below consonant
entries ṛ, ṛh, ḷ from `CONSONANTS` and adds IAST spellings for the
vocalic r/l vowels and for the anusvara, but the ISO15919 ring-below
vowel spellings and the ISO15919 anusvara ṁ remain active, so under IAST
those phonemes have two active spellings each, mapping to the same
Devanagari codepoints. -/
theorem c3_scheme_tables_amended :
    dictGet iastInstance.1.consonants [0x1E5B] = none ∧
    dictGet iastInstance.1.consonants [0x1E5B, 0x68] = none ∧
    dictGet iastInstance.1.consonants [0x1E37] = none ∧
    dictGet tables0.consonants [0x1E5B] = some [0x095C] ∧
    dictGet iastInstance.1.initialVowels [0x1E5B] =
      dictGet iastInstance.1.initialVowels [0x72, 0x325] ∧
    dictGet iastInstance.1.combiningVowels [0x1E5B] =
      dictGet iastInstance.1.combiningVowels [0x72, 0x325] ∧
    dictGet iastInstance.1.combiningVowels [0x1E5B] = some [0x0943] ∧
    dictGet iastInstance.1.diacritics [0x1E43] =
      dictGet iastInstance.1.diacritics [0x1E41] ∧
    dictGet iastInstance.1.diacritics [0x1E43] = some [0x0902] := by decide

/-- C4: outputs are not independent of other instances — the constructor
mutates the class-level dictionaries shared by all instances, so
constructing an IAST instance changes what an existing ISO instance
returns for the same input (here ṛ, U+1E5B). -/
theorem c4_shared_class_state :
    initTransliterator false tables0 = Except.ok isoInstance ∧
    initTransliterator true isoInstance.1 = Except.ok isoThenIast ∧
    transliterate isoInstance.1 isoInstance.2 [0x1E5B] = [0x095C, 0x094D] ∧
    transliterate isoThenIast.1 isoInstance.2 [0x1E5B] = [0x090B] ∧
    transliterate isoInstance.1 isoInstance.2 [0x1E5B] ≠
      transliterate isoThenIast.1 isoInstance.2 [0x1E5B] :=
  ⟨rfl, rfl, by decide, by decide, by decide⟩

/-- C5: a consonant token processed in any state emits the closing virama
for a previously pending consonant and then its own codepoints, leaving
the state pending-consonant; a combining-vowel token processed right
after it (state `1`) emits exactly its codepoint sequence and returns the
state to start (`0`); no virama occurs inside either emission. -/
theorem c5_consonant_then_vowel (s : Int) (kv kv' : Str × Str)
    (hc : kv ∈ isoInstance.1.consonants)
    (hv : kv' ∈ isoInstance.1.combiningVowels)
    (_hne : kv'.1 ≠ [0x61]) :
    process_token isoInstance.1 s kv.1 =
      some ((if s = 1 then [VIRAMA] else []) ++ kv.2, 1) ∧
    process_token isoInstance.1 1 kv'.1 = some (kv'.2, 0) ∧
    VIRAMA ∉ kv.2 ∧ VIRAMA ∉ kv'.2 := by
  obtain ⟨a1, a2, a3, a4, a5, _⟩ := iso_cons_facts kv hc
  obtain ⟨b1, b2, b3, b4, b5, b6⟩ := iso_comb_facts kv' hv
  exact ⟨process_token_consonant _ _ _ _ a1 a2 a3 a4,
    process_token_combining _ _ _ b1 b2 b3 b4 b5, a5, b6⟩

/-- Witness for C5 at `k` followed by `i`. -/
theorem c5_consonant_then_vowel_witness :
    process_token isoInstance.1 0 [0x6B] =
      some ((if (0 : Int) = 1 then [VIRAMA] else []) ++ [0x0915], 1) ∧
    process_token isoInstance.1 1 [0x69] = some ([0x093F], 0) ∧
    VIRAMA ∉ ([0x0915] : Str) ∧ VIRAMA ∉ ([0x093F] : Str) :=
  c5_consonant_then_vowel 0 ([0x6B], [0x0915]) ([0x69], [0x093F])
    (by decide) (by decide) (by decide)

/-- C7: the two apostrophe/space special cases in the pending-consonant
state: space-then-apostrophe consumes both characters, emits nothing and
resets the state to start; apostrophe-then-space consumes both characters,
emits one literal space and resets the state to start. -/
theorem c7_apostrophe_space_specials (tb : Tables) (tr : List Str)
    (rest : Str) :
    scanText tb tr 1 (0x20 :: 0x27 :: rest) = scanText tb tr 0 rest ∧
    scanText tb tr 1 (0x27 :: 0x20 :: rest) =
      0x20 :: scanText tb tr 0 rest := by
  constructor <;> norm_num [scanText, process_token]

/-- C9: every iteration of the scan loop consumes exactly one or exactly
two characters, and the loop's value decomposes accordingly, so the
cursor strictly increases and `scanText` (hence `transliterate`, a total
Lean function) terminates on every finite input. -/
theorem c9_cursor_advance (tb : Tables) (tr : List Str) (s : Int)
    (c : Nat) (rest : Str) :
    ((stepScan tb tr s c rest).2.2 = 1 ∨ (stepScan tb tr s c rest).2.2 = 2) ∧
    scanText tb tr s (c :: rest) =
      (stepScan tb tr s c rest).1 ++
        scanText tb tr (stepScan tb tr s c rest).2.1
          ((c :: rest).drop (stepScan tb tr s c rest).2.2) := by
  cases rest with
  | nil =>
    cases h : process_token tb s [c] with
    | some p =>
      obtain ⟨out, s'⟩ := p
      simp [stepScan, scanText, h]
    | none => simp [stepScan, scanText, h]
  | cons c2 rest' =>
    cases h : process_token tb s [c, c2] with
    | some p =>
      obtain ⟨out, s'⟩ := p
      simp [stepScan, scanText, h]
    | none => simp [stepScan, scanText, h]

/-- C10: constructing with `iast=True` a second time raises `KeyError`:
the first construction deleted ṛ, ṛh and ḷ from the class-level
consonant dictionary, so the second construction's `del` of ṛ fails
(the error payload is the missing key U+1E5B). -/
theorem c10_second_iast_keyerror :
    (initTransliterator true tables0).isOk = true ∧
    initTransliterator true iastInstance.1 = Except.error [0x1E5B] ∧
    dictGet iastInstance.1.consonants [0x1E5B] = none ∧
    dictGet iastInstance.1.consonants [0x1E5B, 0x68] = none ∧
    dictGet iastInstance.1.consonants [0x1E37] = none :=
  ⟨by decide, rfl, by decide, by decide, by decide⟩

theorem scanText_nil (tb : Tables) (tr : List Str) (s : Int) :
    scanText tb tr s [] = if s = 1 then [VIRAMA] else [] := rfl

/-- Transliterating a consonant token alone (of a length the scanner can
actually consume) yields its codepoints closed by a trailing virama. -/
theorem iso_cons_alone :
    ∀ kv ∈ isoInstance.1.consonants, kv.1.length ≤ 2 →
      transliterate isoInstance.1 isoInstance.2 kv.1 = kv.2 ++ [VIRAMA] := by
  decide

/-- A consonant followed by a space whose next character starts no
transliterable token: the virama lands right after the consonant, the
space and the passthrough character follow. -/
theorem iso_cons_space_stop :
    ∀ kv ∈ isoInstance.1.consonants, kv.1.length ≤ 2 →
      transliterate isoInstance.1 isoInstance.2 (kv.1 ++ [0x20, 0x37]) =
        kv.2 ++ [VIRAMA, 0x20, 0x37] := by
  decide

/-- A consonant followed by a space and then a one-character vowel token:
the space is swallowed and the vowel combines, with no virama anywhere. -/
theorem iso_cons_space_vowel :
    ∀ kv ∈ isoInstance.1.consonants, kv.1.length ≤ 2 →
      ∀ kv' ∈ isoInstance.1.combiningVowels, kv'.1.length = 1 →
        transliterate isoInstance.1 isoInstance.2 (kv.1 ++ 0x20 :: kv'.1) =
          kv.2 ++ kv'.2 := by
  decide

/-- C6 counterexample: the consonant `k` is followed by whitespace in
`"k i"`, yet the output holds no virama at all — the space is swallowed
and the vowel `i` combines with the consonant, contradicting the claim
that whitespace after a consonant forces a virama. -/
theorem c6_space_swallow_counterexample :
    transliterate isoInstance.1 isoInstance.2 [0x6B, 0x20, 0x69] =
      [0x0915, 0x093F] ∧
    VIRAMA ∉ ([0x0915, 0x093F] : Str) := by decide

/-- C6 amended: for every consonant token of at most two characters (the
longest slice the scanner forms), a virama is emitted immediately after
its codepoints when another consonant token follows, when input ends
(trailing-virama rule), or when a following space precedes a character
that starts no transliterable token; but a space followed by a
transliterable character is swallowed, so a vowel after the space
combines and no virama is emitted. -/
theorem c6_virama_closure (kv kv2 : Str × Str)
    (h1 : kv ∈ isoInstance.1.consonants)
    (h2 : kv2 ∈ isoInstance.1.consonants)
    (hlen : kv.1.length ≤ 2) :
    process_token isoInstance.1 1 kv2.1 = some (VIRAMA :: kv2.2, 1) ∧
    transliterate isoInstance.1 isoInstance.2 kv.1 = kv.2 ++ [VIRAMA] ∧
    transliterate isoInstance.1 isoInstance.2 (kv.1 ++ [0x20, 0x37]) =
      kv.2 ++ [VIRAMA, 0x20, 0x37] ∧
    (∀ kv' ∈ isoInstance.1.combiningVowels, kv'.1.length = 1 →
      transliterate isoInstance.1 isoInstance.2 (kv.1 ++ 0x20 :: kv'.1) =
        kv.2 ++ kv'.2) := by
  obtain ⟨a1, a2, a3, a4, _, _⟩ := iso_cons_facts kv2 h2
  refine ⟨?_, iso_cons_alone kv h1 hlen, iso_cons_space_stop kv h1 hlen,
    fun kv' h' hlen' => iso_cons_space_vowel kv h1 hlen kv' h' hlen'⟩
  have h := process_token_consonant isoInstance.1 1 kv2.1 kv2.2 a1 a2 a3 a4
  simpa using h

/-- Witness for C6 at `k` (followed by end of input, by a space and `7`,
by a space and a vowel) and at `g` following a pending consonant. -/
theorem c6_virama_closure_witness :
    process_token isoInstance.1 1 [0x67] = some (VIRAMA :: [0x0917], 1) ∧
    transliterate isoInstance.1 isoInstance.2 [0x6B] = [0x0915] ++ [VIRAMA] ∧
    transliterate isoInstance.1 isoInstance.2 ([0x6B] ++ [0x20, 0x37]) =
      [0x0915] ++ [VIRAMA, 0x20, 0x37] ∧
    transliterate isoInstance.1 isoInstance.2 ([0x6B] ++ 0x20 :: [0x69]) =
      [0x0915] ++ [0x093F] :=
  have h := c6_virama_closure ([0x6B], [0x0915]) ([0x67], [0x0917])
    (by decide) (by decide) (by decide)
  ⟨h.1, h.2.1, h.2.2.1, h.2.2.2 ([0x69], [0x093F]) (by decide) (by decide)⟩

/-! ### Output-length bound (C8) -/

theorem pendOf_zero : pendOf 0 = 0 := rfl

theorem pendOf_one : pendOf 1 = 1 := rfl

theorem pendOf_negOne : pendOf (-1) = 0 := rfl

/-- Any successful `process_token` emission stays within twice the
consumed characters, once the virama debt tracked by `pendOf` is
accounted for. -/
theorem process_token_length (tb : Tables)
    (hc : ∀ kv ∈ tb.consonants, kv.2.length ≤ 1)
    (hi : ∀ kv ∈ tb.initialVowels, kv.2.length ≤ 2)
    (hv : ∀ kv ∈ tb.combiningVowels, kv.2.length ≤ 2)
    (s : Int) (tok out : Str) (s' : Int) (hlen : 1 ≤ tok.length)
    (h : process_token tb s tok = some (out, s')) :
    out.length + pendOf s' ≤ 2 * tok.length + pendOf s := by
  unfold process_token at h
  by_cases hA : tok = [0x20, 0x27] ∧ s = 1
  · rw [if_pos hA] at h
    simp only [Option.some.injEq, Prod.mk.injEq] at h
    obtain ⟨h1, h2⟩ := h
    subst h1; subst h2
    simp only [List.length_nil, pendOf_zero]
    omega
  · rw [if_neg hA] at h
    by_cases hB : tok = [0x27, 0x20] ∧ s = 1
    · rw [if_pos hB] at h
      simp only [Option.some.injEq, Prod.mk.injEq] at h
      obtain ⟨h1, h2⟩ := h
      subst h1; subst h2
      simp only [List.length_singleton, pendOf_zero]
      omega
    · rw [if_neg hB] at h
      by_cases hC : tok = [0x27, 0x1E41]
      · rw [if_pos hC] at h
        simp only [Option.some.injEq, Prod.mk.injEq] at h
        obtain ⟨h1, h2⟩ := h
        subst h1; subst h2
        simp only [List.length_cons, List.length_nil, pendOf_zero]
        omega
      · rw [if_neg hC] at h
        cases hg : dictGet tb.consonants tok with
        | some codes =>
          simp only [hg, Option.some.injEq, Prod.mk.injEq] at h
          obtain ⟨h1, h2⟩ := h
          subst h1; subst h2
          have hb : codes.length ≤ 1 := hc _ (dictGet_mem hg)
          rw [List.length_append, viramaPrefix_length, pendOf_one]
          omega
        | none =>
          simp only [hg] at h
          by_cases hs1 : s < 1
          · rw [if_pos hs1] at h
            cases hg2 : dictGet tb.initialVowels tok with
            | some codes =>
              simp only [hg2, Option.some.injEq, Prod.mk.injEq] at h
              obtain ⟨h1, h2⟩ := h
              subst h1; subst h2
              have hb : codes.length ≤ 2 := hi _ (dictGet_mem hg2)
              omega
            | none => simp [hg2] at h
          · rw [if_neg hs1] at h
            by_cases hs2 : s = 1
            · subst hs2
              rw [if_pos rfl] at h
              cases hg2 : dictGet tb.combiningVowels tok with
              | some codes =>
                simp only [hg2, Option.some.injEq, Prod.mk.injEq] at h
                obtain ⟨h1, h2⟩ := h
                subst h1; subst h2
                have hb : codes.length ≤ 2 := hv _ (dictGet_mem hg2)
                rw [pendOf_zero, pendOf_one]
                omega
              | none => simp [hg2] at h
            · rw [if_neg hs2] at h
              exact absurd h (by simp)

/-- The single-character arm emits at most two codepoints net of the
virama debt. -/
theorem stepOne_length (tb : Tables)
    (hc : ∀ kv ∈ tb.consonants, kv.2.length ≤ 1)
    (hi : ∀ kv ∈ tb.initialVowels, kv.2.length ≤ 2)
    (hv : ∀ kv ∈ tb.combiningVowels, kv.2.length ≤ 2)
    (tr : List Str) (s : Int) (c : Nat) (la : Str) :
    (stepOne tb tr s c la).1.length + pendOf (stepOne tb tr s c la).2 ≤
      2 + pendOf s := by
  unfold stepOne
  by_cases hsp : c = 0x20 ∧ ((s = 1 ∧ la ∈ tr) ∨ (s < 1 ∧ la = [0x27]))
  · rw [if_pos hsp]
    simp only [List.length_nil]
    omega
  · rw [if_neg hsp]
    by_cases hap : c = 0x27 ∧ ¬ la ∈ tr
    · rw [if_pos hap]
      simp only [List.length_nil, pendOf_zero]
      omega
    · rw [if_neg hap]
      cases h : process_token tb s [c] with
      | some p =>
        obtain ⟨out, s'⟩ := p
        have hb := process_token_length tb hc hi hv s [c] out s'
          (by simp) h
        simp only [List.length_singleton] at hb
        simpa using hb
      | none =>
        simp only [List.length_append, List.length_singleton,
          viramaPrefix_length, pendOf_negOne]
        omega

/-- The scan loop's output is at most twice the remaining input plus the
virama debt of the current state. -/
theorem scanText_length (tb : Tables)
    (hc : ∀ kv ∈ tb.consonants, kv.2.length ≤ 1)
    (hi : ∀ kv ∈ tb.initialVowels, kv.2.length ≤ 2)
    (hv : ∀ kv ∈ tb.combiningVowels, kv.2.length ≤ 2)
    (tr : List Str) :
    ∀ (n : Nat) (l : Str), l.length ≤ n → ∀ s : Int,
      (scanText tb tr s l).length ≤ 2 * l.length + pendOf s := by
  intro n
  induction n with
  | zero =>
    intro l hl s
    obtain rfl : l = [] := List.length_eq_zero.mp (Nat.le_zero.mp hl)
    rw [scanText_nil, viramaPrefix_length]
    omega
  | succ n ih =>
    intro l hl s
    rcases l with _ | ⟨c, _ | ⟨c2, rest⟩⟩
    · rw [scanText_nil, viramaPrefix_length]
      omega
    · simp only [scanText]
      cases h : process_token tb s [c] with
      | some p =>
        obtain ⟨out, s'⟩ := p
        have hb := process_token_length tb hc hi hv s [c] out s'
          (by simp) h
        simp only [List.length_singleton] at hb
        simp only [List.length_append, scanText_nil, viramaPrefix_length,
          List.length_singleton]
        omega
      | none =>
        rcases hq : stepOne tb tr s c [] with ⟨o, s'⟩
        have hb := stepOne_length tb hc hi hv tr s c []
        simp only [hq] at hb
        simp only [hq, List.length_append, scanText_nil, viramaPrefix_length,
          List.length_singleton]
        omega
    · simp only [scanText]
      cases h : process_token tb s [c, c2] with
      | some p =>
        obtain ⟨out, s'⟩ := p
        have hb := process_token_length tb hc hi hv s [c, c2] out s'
          (by simp) h
        simp only [List.length_cons, List.length_nil] at hb
        have hrec := ih rest (by simp only [List.length_cons] at hl; omega) s'
        simp only [List.length_append, List.length_cons]
        omega
      | none =>
        rcases hq : stepOne tb tr s c [c2] with ⟨o, s'⟩
        have hb := stepOne_length tb hc hi hv tr s c [c2]
        simp only [hq] at hb
        have hrec := ih (c2 :: rest)
          (by simp only [List.length_cons] at hl ⊢; omega) s'
        simp only [hq, List.length_append, List.length_cons]
        simp only [List.length_cons] at hrec
        omega

/-- C8 counterexample: the single bare consonant `k` transliterates to
two codepoints (consonant plus trailing virama), strictly longer than the
one-character input. -/
theorem c8_length_counterexample :
    ¬ ((transliterate isoInstance.1 isoInstance.2 [0x6B]).length ≤
        ([0x6B] : Str).length) := by decide

/-- C8 amended: the output of `transliterate` holds at most twice as many
Unicode scalar values as the (lowercase-folded, length-preserving) input,
under either scheme's effective tables. -/
theorem c8_length_bound (text : Str) :
    (transliterate isoInstance.1 isoInstance.2 text).length ≤
      2 * text.length ∧
    (transliterate iastInstance.1 iastInstance.2 text).length ≤
      2 * text.length := by
  constructor
  · have hb := scanText_length isoInstance.1 (by decide) (by decide)
      (by decide) isoInstance.2 (text.map lowerChar).length
      (text.map lowerChar) le_rfl 0
    simpa [transliterate, pendOf] using hb
  · have hb := scanText_length iastInstance.1 (by decide) (by decide)
      (by decide) iastInstance.2 (text.map lowerChar).length
      (text.map lowerChar) le_rfl 0
    simpa [transliterate, pendOf] using hb

end Ur2ud
